import Mathlib

/-!
Verification of the unitxt metric-aggregation core.

This file embeds, in Lean, the parts of `src/unitxt/metrics.py` that the
checked properties are about: score values and instances, `nan_mean` and the
instance-score aggregating functions, `score_groups_globally` and
`average_groups_global_scores`, the `GlobalMetric` per-instance preview
scoring, `score_based_confidence_interval`'s key structure,
`performance_drop_rate`, the `BulkInstanceMetric` "mean" reduction, and the
global-score dictionary sharing of `GlobalMetric.process` and
`InstanceMetric.compute_instance_scores`.  The paired-significance module
(`metric_paired_significance.py`) is not among the sources, only its tests
are; its McNemar branch is modelled from the spec.

Conventions: Python floats are rationals plus a NaN marker (the model treats
NaN uniformly as the `np.nan` object; the identity-vs-equality distinction
between `np.nan` and computed float NaNs is collapsed).  Python `None` and
strings appear as score-dictionary values and get their own constructors.
Python dicts of scores are insertion-ordered association lists.  Raising an
exception is modelled with `Except`.
-/

namespace Unitxt

/-- Score-dictionary values: a float (modelled as a rational), the float NaN
(modelling `np.nan`), Python `None`, or a string.  List-valued score fields
(e.g. rouge with `use_aggregator=False`) are outside the modelled fragment. -/
inductive Val where
  | num (q : ℚ)
  | nan
  | pynone
  | str (s : String)
deriving DecidableEq

/-- One evaluated example, as the aggregation engine sees it: its
`score.instance` dictionary and its `task_data` side-channel fields
(flattened: a key is the full lookup path, e.g. "task_data/group_id").
The `references`/`prediction` payload is consumed only by the abstract
`compute` callables of the metric kinds and is elided here. -/
structure Instance where
  scoreInstance : List (String × Val)
  taskData : List (String × String)
deriving DecidableEq

/-- Python exceptions that the modelled code paths can raise.  The two
grouping `ValueError`s carry the data the f-string in the source interpolates
into the message: the offending instance and the value that the message
quotes as the missing "subfield". -/
inductive PyErr where
  | keyError (k : String)
  | valueErrorGrouping (offending : Instance) (shownSubfield : String)
  | valueErrorFiltering (offending : Instance) (column : String)
  | valueErrorControlComparison (offending : Instance) (column : String)
  | valueErrorBulkGrouping
  | unboundLocal
  | assertionError
  | attributeError
  | typeError
  | statisticsError
deriving DecidableEq

/-- Ordered-dict lookup (first binding wins, as in a Python dict where keys
are unique). -/
def lookupStr {α : Type} : List (String × α) → String → Option α
  | [], _ => none
  | (k', v) :: rest, k => if k' = k then some v else lookupStr rest k

/-- Python dict assignment `d[k] = v`: overwrite in place if the key exists,
otherwise append at the end (insertion order). -/
def dictSet {α : Type} : List (String × α) → String → α → List (String × α)
  | [], k, v => [(k, v)]
  | (k', v') :: rest, k, v =>
      if k' = k then (k, v) :: rest else (k', v') :: dictSet rest k v

/-- Keys of a score dictionary, in order. -/
def dictKeys {α : Type} (d : List (String × α)) : List String := d.map Prod.fst

/-- Numeric view of a value: `some q` exactly for floats that are not NaN. -/
def toNum : Val → Option ℚ
  | .num q => some q
  | _ => none

/-- Float-likeness: the value is a Python float (a number or NaN). -/
def floatLike : Val → Bool
  | .num _ => true
  | .nan => true
  | _ => false

/-- Mean of a rational list (models `statistics.mean` on its nonempty
call sites; the empty case is guarded by every caller). -/
def list_mean (l : List ℚ) : ℚ := l.sum / l.length

/-- Model of `nan_mean` (metrics.py lines 52-59): `np.nanmean` of a float
list — the mean of the non-NaN entries, NaN if there is none.  The modelled
call sites only pass floats. -/
def nan_mean (xs : List Val) : Val :=
  let nums := xs.filterMap toNum
  if nums = [] then .nan else .num (list_mean nums)

/-- Reading `instance["score"]["instance"][score_name]`; a missing key is a
Python `KeyError`. -/
def getInstanceScore (inst : Instance) (score_name : String) : Except PyErr Val :=
  match lookupStr inst.scoreInstance score_name with
  | some v => .ok v
  | none => .error (.keyError score_name)

/-- A Python list comprehension or loop that can raise: map `f` over the
list in order, stopping at the first raised exception. -/
def mapExcept {α β : Type} (f : α → Except PyErr β) : List α → Except PyErr (List β)
  | [] => .ok []
  | a :: rest => do
      let b ← f a
      let bs ← mapExcept f rest
      return b :: bs

/-- Model of `MetricWithConfidenceInterval.average_item_scores` (lines
259-269): mean of the instance scores named `score_name`, omitting NaN. -/
def average_item_scores (instances : List Instance) (score_name : String) :
    Except PyErr Val := do
  let scores ← mapExcept (fun i => getInstanceScore i score_name) instances
  return nan_mean scores

/-- The `grouping` configuration dict (lines 218-227): must contain exactly
the fields `group_by_field` and `ci_samples_from_groups_scores`. -/
structure GroupingCfg where
  group_by_field : String
  ci_samples_from_groups_scores : Bool

/-- The `subgroup_filtering` configuration dict (lines 229-234). -/
structure FilterCfg where
  subgroup_column : String
  subgroup_types : List String

/-- The `control_comparison` configuration dict (line 236). -/
structure CCCfg where
  subgroup_column : String
  control_subgroup_types : List String
  comparison_subgroup_types : List String
  control_comparison_score_calculator : List Val → List Val → Val

/-- The three metric kinds, carrying the callable each kind dispatches on in
`score_groups_globally`: an `InstanceMetric` has an
`aggregating["aggregating_function"]`, a `GlobalMetric` has
`process_single_instances` and its `compute`, a `BulkInstanceMetric` has
neither (this path is an error for it). -/
inductive MetricKind where
  | instanceMetric (aggregating_function : List Instance → String → Except PyErr Val)
  | globalMetric (process_single_instances : Bool)
      (compute : List Instance → Except PyErr (List (String × Val)))
  | bulkInstanceMetric

/-- The `MetricWithConfidenceInterval` attributes the modelled operations
read. -/
structure MetricCfg where
  main_score : String
  n_resamples : Option Int
  grouping : Option GroupingCfg
  subgroup_filtering : Option FilterCfg
  control_comparison : Option CCCfg
  kind : MetricKind

/-- Modelled from the spec: `dict_utils.dict_get` is not among the sources.
Per the spec, it looks a (possibly nested) field path up in the instance's
side data and raises when the field is absent; here absence is `none` and
the callers raise. -/
def dict_get (inst : Instance) (path : String) : Option String :=
  lookupStr inst.taskData path

/-- Append an instance to its group, creating the group at the end on first
sight (insertion-ordered `defaultdict(list)`). -/
def addToGroup (acc : List (String × List Instance)) (k : String) (i : Instance) :
    List (String × List Instance) :=
  match acc with
  | [] => [(k, [i])]
  | (k', l) :: rest =>
      if k' = k then (k', l ++ [i]) :: rest else (k', l) :: addToGroup rest k i

/-- The grouping loop of `score_groups_globally` (lines 469-477).  `last`
is the state of the Python local variable `group_name` when the handler of a
`dict_get` failure runs: the `except` clause interpolates `group_name` — not
the configured field — into its message, so on the first instance it is
unbound (an `UnboundLocalError`, not a `ValueError`), and later it holds the
previous instance's group value. -/
def groupInstancesGo (group_by_field : String) (last : Option String)
    (acc : List (String × List Instance)) :
    List Instance → Except PyErr (List (String × List Instance))
  | [] => .ok acc
  | i :: rest =>
      match dict_get i group_by_field with
      | some name => groupInstancesGo group_by_field (some name) (addToGroup acc name i) rest
      | none =>
          match last with
          | none => .error .unboundLocal
          | some prev => .error (.valueErrorGrouping i prev)

/-- Step 1 of `score_groups_globally` (lines 466-477): one implicit group
"all" when `grouping` is `None`, otherwise partition by the configured
field. -/
def groupInstances (grouping : Option GroupingCfg) (instances : List Instance) :
    Except PyErr (List (String × List Instance)) :=
  match grouping with
  | none => .ok [("all", instances)]
  | some g => groupInstancesGo g.group_by_field none [] instances

/-- Step 2 of `score_groups_globally` (lines 483-497): keep only the
instances whose side value at `subgroup_column` is among `subgroup_types`;
a missing column is a `ValueError` naming the instance and the column. -/
def filterGroup (cfg : FilterCfg) : List Instance → Except PyErr (List Instance)
  | [] => .ok []
  | i :: rest =>
      match dict_get i cfg.subgroup_column with
      | none => .error (.valueErrorFiltering i cfg.subgroup_column)
      | some t => do
          let rest' ← filterGroup cfg rest
          return (if t ∈ cfg.subgroup_types then i :: rest' else rest')

/-- Step 3 of `score_groups_globally` (lines 500-525): split a group into
control and comparison sub-lists by side value; instances matching neither
are dropped; a missing column is a `ValueError`. -/
def splitGroup (cfg : CCCfg) : List Instance → Except PyErr (List Instance × List Instance)
  | [] => .ok ([], [])
  | i :: rest =>
      match dict_get i cfg.subgroup_column with
      | none => .error (.valueErrorControlComparison i cfg.subgroup_column)
      | some t => do
          let (c, m) ← splitGroup cfg rest
          if t ∈ cfg.control_subgroup_types then return (i :: c, m)
          else if t ∈ cfg.comparison_subgroup_types then return (c, i :: m)
          else return (c, m)

/-- A group after the optional control/comparison split. -/
inductive GroupVal where
  | plain (l : List Instance)
  | split (control comparison : List Instance)

/-- A group's own global score: a score dictionary, or NaN for an empty
group of a `GlobalMetric` (line 553). -/
inductive GroupGlobal where
  | gdict (d : List (String × Val))
  | gnan
deriving DecidableEq

/-- Model of `GlobalMetric._compute` (lines 746-755): run `compute`, then
set `result["score"] = result[main_score]` (a `KeyError` if the main score
is absent) and `result["score_name"] = main_score`. -/
def underscore_compute (main_score : String)
    (compute : List Instance → Except PyErr (List (String × Val)))
    (l : List Instance) : Except PyErr (List (String × Val)) := do
  let r ← compute l
  match lookupStr r main_score with
  | none => .error (.keyError main_score)
  | some v => return dictSet (dictSet r "score" v) "score_name" (.str main_score)

/-- Step 4 of `score_groups_globally` (lines 527-573), for one group.
Returns `none` for the silently skipped case: a `GlobalMetric` group that
was split into control/comparison falls through the `isinstance(group, list)`
test and gets no entry.  An `InstanceMetric` applies its aggregating
function (or, on a split group, the control/comparison calculator to the two
raw score lists); a `GlobalMetric` re-runs `_compute` on the group (NaN for
an empty group); for a `BulkInstanceMetric` this path raises. -/
def scoreOneGroup (cfg : MetricCfg) (score_names : Option (List String)) :
    GroupVal → Except PyErr (Option GroupGlobal)
  | .plain l =>
      match cfg.kind with
      | .instanceMetric agg =>
          match score_names with
          | none => .error .typeError
          | some ns => do
              let d ← mapExcept (fun n => do
                let v ← agg l n
                return (n, v)) ns
              return some (.gdict d)
      | .globalMetric _ compute =>
          if l = [] then return some .gnan
          else do
            let d ← underscore_compute cfg.main_score compute l
            return some (.gdict d)
      | .bulkInstanceMetric => .error .valueErrorBulkGrouping
  | .split c m =>
      match cfg.kind with
      | .instanceMetric _ =>
          match score_names with
          | none => .error .typeError
          | some ns => do
              let d ← mapExcept (fun n => do
                let cs ← mapExcept (fun i => getInstanceScore i n) c
                let ms ← mapExcept (fun i => getInstanceScore i n) m
                match cfg.control_comparison with
                | some cc =>
                    return (n, cc.control_comparison_score_calculator cs ms)
                | none => .error .typeError) ns
              return some (.gdict d)
      | .globalMetric _ _ => return none
      | .bulkInstanceMetric => .error .valueErrorBulkGrouping

/-- The filtering pass over all groups (`if self.subgroup_filtering:`,
lines 483-497; an unset configuration is falsy and skips the pass). -/
def applyFiltering (cfgf : Option FilterCfg)
    (grouped : List (String × List Instance)) :
    Except PyErr (List (String × List Instance)) :=
  match cfgf with
  | none => pure grouped
  | some f => mapExcept (fun p => do
      let l' ← filterGroup f p.2
      return (p.1, l')) grouped

/-- The control/comparison pass over all groups (`if self.control_comparison:`,
lines 500-525). -/
def applySplit (cfgcc : Option CCCfg) (grouped : List (String × List Instance)) :
    Except PyErr (List (String × GroupVal)) :=
  match cfgcc with
  | none => pure (grouped.map (fun p => (p.1, GroupVal.plain p.2)))
  | some cc => mapExcept (fun p => do
      let (c, m) ← splitGroup cc p.2
      return (p.1, GroupVal.split c m)) grouped

/-- The scoring pass over all groups (lines 527-573), dropping the silently
skipped groups. -/
def scoreGroups (cfg : MetricCfg) (score_names : Option (List String))
    (grouped2 : List (String × GroupVal)) :
    Except PyErr (List (String × GroupGlobal)) := do
  let scored ← mapExcept (fun p => do
      let r ← scoreOneGroup cfg score_names p.2
      return (p.1, r)) grouped2
  return scored.filterMap (fun p => p.2.map (fun v => (p.1, v)))

/-- Model of `MetricWithConfidenceInterval.score_groups_globally` (lines
463-578): group, filter, split, then score each group.  The validation call
of the `GlobalMetric` branch (`_validate_references_and_prediction`) and the
`consume_stream` repackaging are outside the modelled fragment. -/
def score_groups_globally (cfg : MetricCfg) (instances : List Instance)
    (score_names : Option (List String)) :
    Except PyErr (List (String × GroupGlobal)) := do
  let grouped ← groupInstances cfg.grouping instances
  let grouped ← applyFiltering cfg.subgroup_filtering grouped
  let grouped2 ← applySplit cfg.control_comparison grouped
  scoreGroups cfg score_names grouped2

/-- Result of `average_groups_global_scores`: the single group's own global
score returned unchanged, a float (many groups, one score name), or a merged
dictionary (many groups, no score name). -/
inductive AvgResult where
  | single (g : GroupGlobal)
  | flt (v : Val)
  | merged (d : List (String × Val))
deriving DecidableEq

/-- Accumulator cell of the dict-merge path of
`average_groups_global_scores`: `result[k]` is either a string (assigned,
last writer wins) or the list the numeric values are appended to. -/
inductive MergeCell where
  | strCell (s : String)
  | listCell (l : List Val)

/-- Merge one key/value pair of a group's global score into the running
`defaultdict(list)` (lines 608-614): strings overwrite, other values are
appended; appending to a key already holding a string is Python's
`AttributeError`. -/
def mergeInto (acc : List (String × MergeCell)) (k : String) (v : Val) :
    Except PyErr (List (String × MergeCell)) :=
  match v with
  | .str s => .ok (dictSet acc k (.strCell s))
  | _ =>
      match lookupStr acc k with
      | none => .ok (acc ++ [(k, .listCell [v])])
      | some (.listCell l) => .ok (dictSet acc k (.listCell (l ++ [v])))
      | some (.strCell _) => .error .attributeError

/-- Merge a whole group dictionary, key by key. -/
def mergeDict (acc : List (String × MergeCell)) :
    List (String × Val) → Except PyErr (List (String × MergeCell))
  | [] => .ok acc
  | (k, v) :: rest => do
      let acc' ← mergeInto acc k v
      mergeDict acc' rest

/-- The outer merge loop (lines 608-618): dictionaries are merged in, the
NaN of an empty group passes its assert and is skipped. -/
def mergeGroups (acc : List (String × MergeCell)) :
    List (String × GroupGlobal) → Except PyErr (List (String × MergeCell))
  | [] => .ok acc
  | (_, .gdict d) :: rest => do
      let acc' ← mergeDict acc d
      mergeGroups acc' rest
  | (_, .gnan) :: rest => mergeGroups acc rest

/-- Extract a named score from a group's global score, as the Python
`groups_global_scores[group_name][score_name]` does: a `KeyError` when the
name is absent, a `TypeError` when the group's score is the NaN of an empty
group. -/
def groupScoreAt (g : GroupGlobal) (n : String) : Except PyErr Val :=
  match g with
  | .gdict d =>
      match lookupStr d n with
      | some v => .ok v
      | none => .error (.keyError n)
  | .gnan => .error .typeError

/-- Model of `MetricWithConfidenceInterval.average_groups_global_scores`
(lines 582-624).  No group at all fails the assert; a single group's global
score is returned unchanged; with a score name the per-group values are
averaged by `nan_mean`; with no score name the group dictionaries are merged
field by field (strings pass through last-writer-wins, numeric fields are
collected and `np.nanmean`-ed; list-valued fields are outside the modelled
fragment). -/
def average_groups_global_scores (cfg : MetricCfg) (instances : List Instance)
    (score_name : Option String) : Except PyErr AvgResult := do
  let gs ← score_groups_globally cfg instances (score_name.map (fun n => [n]))
  match gs with
  | [] => .error .assertionError
  | [g] => return .single g.2
  | _ =>
      match score_name with
      | some n => do
          let vals ← mapExcept (fun p => groupScoreAt p.2 n) gs
          return .flt (nan_mean vals)
      | none => do
          let cells ← mergeGroups [] gs
          return .merged (cells.map (fun p =>
            (p.1, match p.2 with
                  | .strCell s => Val.str s
                  | .listCell l => nan_mean l)))

/-- The grouped branch of `InstanceMetric.process` (lines 1013-1022): the
stream's global score for one score name is the `nan_mean` of the per-group
global scores. -/
def grouped_groups_mean (gs : List (String × GroupGlobal)) (n : String) :
    Except PyErr Val := do
  let vals ← mapExcept (fun p => groupScoreAt p.2 n) gs
  return nan_mean vals

/-- Model of the global-score computation of `InstanceMetric.process`
(lines 1002-1022) for one score name: `score_groups_globally`, then — when
`grouping` is `None` — the single group "all"'s value for that name,
otherwise the `nan_mean` over the groups. -/
def instance_metric_global_score (cfg : MetricCfg) (instances : List Instance)
    (n : String) : Except PyErr Val := do
  let gs ← score_groups_globally cfg instances (some [n])
  match cfg.grouping with
  | none =>
      match lookupStr gs "all" with
      | some g => groupScoreAt g n
      | none => .error (.keyError "all")
  | some _ => grouped_groups_mean gs n

/-- Model of the per-instance preview scoring of `GlobalMetric.process`
(lines 668-688).  `r` is the outcome of `self._compute` on the singleton
(an `.error` models the caught exception).  `no_score_value` starts as NaN
"for backward compatibility" and is set to Python `None` by the handler;
when no usable instance score results, the fallback dictionary carries
`no_score_value` under "score" and under the main score's name. -/
def previewScore (main_score : String) (process_single_instances : Bool)
    (r : Except PyErr (List (String × Val))) : List (String × Val) :=
  let pair : Option (List (String × Val)) × Val :=
    if process_single_instances then
      match r with
      | .ok d => (some d, Val.nan)
      | .error _ => (none, Val.pynone)
    else (none, Val.nan)
  match pair.1 with
  | some d =>
      if d = [] then
        dictSet [("score", pair.2), ("score_name", Val.str main_score)] main_score pair.2
      else d
  | none =>
      dictSet [("score", pair.2), ("score_name", Val.str main_score)] main_score pair.2

/-- Model of `GlobalMetric.process` (lines 642-694) up to the global-score
update: the per-instance preview dictionaries (each `update`-merged into its
instance's `score.instance`) and the stream's global score from
`average_groups_global_scores`.  The confidence-interval block (lines
696-740) and the reference/prediction validation are modelled separately /
outside the fragment. -/
def global_metric_process (cfg : MetricCfg) (instances : List Instance) :
    Except PyErr (List (List (String × Val)) × AvgResult) :=
  match cfg.kind with
  | .globalMetric psi compute =>
      let previews := instances.map (fun i =>
        previewScore cfg.main_score psi (underscore_compute cfg.main_score compute [i]))
      do
        let g ← average_groups_global_scores cfg instances none
        return (previews, g)
  | _ => .error .typeError

/-- Model of `MetricWithConfidenceInterval._can_compute_confidence_intervals`
(lines 252-257). -/
def can_compute_confidence_intervals (n_resamples : Option Int)
    (num_predictions : Nat) : Bool :=
  match n_resamples with
  | none => false
  | some n => decide (1 < n) && decide (1 < num_predictions)

/-- Model of `MetricWithConfidenceInterval._all_instance_scores_equal`
(lines 283-292): drop the `np.nan` entries, count the distinct remaining
scores, and test for exactly one. -/
def all_instance_scores_equal (instances : List Instance) (score_name : String) :
    Except PyErr Bool := do
  let scores ← mapExcept (fun i => getInstanceScore i score_name) instances
  let nonNan := scores.filter (fun v => match v with | .nan => false | _ => true)
  return nonNan.dedup.length = 1

/-- Key/value writes of one loop iteration of
`score_based_confidence_interval` (lines 356-361): the two suffixed CI keys,
plus the unsuffixed pair when the score name is the main score.  `bs` stands
for the scipy bootstrap confidence interval (low, high) of the resampled
aggregate — an opaque numeric oracle, since the claims concern only which
keys appear. -/
def ciKeysFor (bs : String → Val × Val) (main_score pfx n : String)
    (acc : List (String × Val)) : List (String × Val) :=
  let lo := (bs n).1
  let hi := (bs n).2
  let acc := dictSet (dictSet acc (pfx ++ n ++ "_ci_low") lo) (pfx ++ n ++ "_ci_high") hi
  if n = main_score then
    dictSet (dictSet acc "score_ci_low" lo) "score_ci_high" hi
  else acc

/-- The per-score-name loop of `score_based_confidence_interval` (lines
329-361): skip a score name whose instance scores are all equal, otherwise
write its CI keys. -/
def sbci_loop (bs : String → Val × Val) (instances : List Instance)
    (main_score pfx : String) :
    List String → List (String × Val) → Except PyErr (List (String × Val))
  | [], acc => .ok acc
  | n :: rest, acc => do
      let eq ← all_instance_scores_equal instances n
      if eq then sbci_loop bs instances main_score pfx rest acc
      else sbci_loop bs instances main_score pfx rest (ciKeysFor bs main_score pfx n acc)

/-- Model of `MetricWithConfidenceInterval.score_based_confidence_interval`
(lines 294-362): an empty dictionary when confidence intervals cannot be
computed, otherwise the loop over the requested score names.  The
`aggregation_func` argument only parameterizes the bootstrap statistic and
is absorbed into the oracle `bs`. -/
def score_based_confidence_interval (bs : String → Val × Val) (cfg : MetricCfg)
    (instances : List Instance) (score_names : List String) (pfx : String) :
    Except PyErr (List (String × Val)) :=
  if can_compute_confidence_intervals cfg.n_resamples instances.length then
    sbci_loop bs instances cfg.main_score pfx score_names []
  else .ok []

/-- Model of `performance_drop_rate` (lines 2977-3016): drop the NaN scores
from both subgroups; NaN when either side is left empty; with a zero control
mean, 0 when the comparison mean is also 0 and NaN otherwise; else the
percentage change `1 - comparison_mean / control_mean`. -/
def performance_drop_rate (control_subgroup comparison_subgroup : List Val) : Val :=
  let c := control_subgroup.filterMap toNum
  let m := comparison_subgroup.filterMap toNum
  if c = [] ∨ m = [] then .nan
  else
    let control_mean := list_mean c
    let comparison_mean := list_mean m
    if control_mean = 0 then
      if comparison_mean = 0 then .num 0 else .nan
    else .num (1 - comparison_mean / control_mean)

/-- Model of `statistics.mean` on a list of Python floats: raises on an
empty list, propagates NaN (NaN is summed, not skipped), and raises a
`TypeError` on non-float values. -/
def statistics_mean (xs : List Val) : Except PyErr Val :=
  if xs = [] then .error .statisticsError
  else if ¬ xs.all floatLike then .error .typeError
  else if xs.any (fun v => match v with | .nan => true | _ => false) then .ok .nan
  else .ok (.num (list_mean (xs.filterMap toNum)))

/-- Model of the "mean" reduction of `BulkInstanceMetric.process` (lines
828-843): for each reduced field, the global score is the plain
`statistics.mean` of the instance scores (NaN included), and the main score
additionally sets "score" and "score_name".  The confidence-interval call of
the same block is modelled separately. -/
def bulk_reduce_loop (main_score : String) (instances : List Instance) :
    List String → List (String × Val) → Except PyErr (List (String × Val))
  | [], gs => .ok gs
  | f :: rest, gs => do
      let scores ← mapExcept (fun i => getInstanceScore i f) instances
      let m ← statistics_mean scores
      let gs' := dictSet gs f m
      bulk_reduce_loop main_score instances rest
        (if f = main_score then
           dictSet (dictSet gs' "score" m) "score_name" (.str main_score)
         else gs')

/-- Entry point of the "mean" reduction, starting from the empty global
score. -/
def bulk_reduce_mean (main_score : String) (instances : List Instance)
    (reduced_fields : List String) : Except PyErr (List (String × Val)) :=
  bulk_reduce_loop main_score instances reduced_fields []

/-- Model of the global-score linking of `GlobalMetric.process` (lines
650-654) and `InstanceMetric.compute_instance_scores` (lines 1097-1100).
Dictionaries are identified by address; `fresh` is the address of the new
empty dict bound to the local `global_score` before the loop.  Each stream
instance either has no pre-existing "score" (it is handed the current
`global_score` binding) or arrives with a global dict of its own (the local
is re-bound to it).  Returns each instance's final global-dict address and
the address the single end-of-run global update is written to. -/
def linkStep (acc : List Nat × Nat) (oi : Option Nat) : List Nat × Nat :=
  match oi with
  | none => (acc.1 ++ [acc.2], acc.2)
  | some a => (acc.1 ++ [a], a)

/-- The loop over the stream, threading the assigned addresses and the
current `global_score` binding. -/
def link_loop (acc : List Nat × Nat) : List (Option Nat) → List Nat × Nat
  | [] => acc
  | oi :: rest => link_loop (linkStep acc oi) rest

/-- Addresses after the whole stream was consumed: each instance's
global-dict address, and the address the end-of-run update targets. -/
def link_global_score (fresh : Nat) (instances : List (Option Nat)) :
    List Nat × Nat :=
  link_loop ([], fresh) instances

/-- The claimed invariant: after the run, every instance's global-score
address is the address the global update is written to, so one update is
visible through every instance. -/
def shared_global_invariant (fresh : Nat) (instances : List (Option Nat)) : Prop :=
  ∀ a ∈ (link_global_score fresh instances).1, a = (link_global_score fresh instances).2

/-- Test selected by `PairedDifferenceTest.signif_pair_diff` for a pair of
samples. -/
inductive TestKind where
  | mcnemar
  | tTest
  | permutation
deriving DecidableEq

/-- Modelled from the spec: `metric_paired_significance.py` is not among the
sources.  A sample vector is binary when its values are restricted to 0 and
1. -/
def isBinaryVec (v : List ℚ) : Bool :=
  v.all (fun x => x = 0 ∨ x = 1)

/-- Modelled from the spec: the off-diagonal counts of the 2x2 contingency
table built from the (vector i, vector j) pairs, with missing cells filled
by zero counts. -/
def discordant10 (x y : List ℚ) : Nat :=
  ((x.zip y).filter (fun p => p.1 = 1 ∧ p.2 = 0)).length

/-- Modelled from the spec: the other off-diagonal count. -/
def discordant01 (x y : List ℚ) : Nat :=
  ((x.zip y).filter (fun p => p.1 = 0 ∧ p.2 = 1)).length

/-- Modelled from the spec: McNemar's exact (binomial) two-sided p-value on
the off-diagonal counts, the fallback that handles degenerate contingency
tables without throwing — twice the lower binomial tail at the smaller
count, capped at 1.  It reproduces the regression-fixed expected values of
`tests/test_metric_signif.py` (e.g. `2^-9 = 0.001953125` for counts 10/0 and
`2^-99` for 100/0). -/
def mcnemarPValue (b c : Nat) : ℚ :=
  let n := b + c
  let k := min b c
  min 1 (2 * (((List.range (k + 1)).map (fun j => (n.choose j : ℚ))).sum) / 2 ^ n)

/-- Modelled from the spec: the paired effect size of the McNemar branch,
computed once and independent of the p-value; 0 for an all-agreeing pair.
With a zero off-diagonal cell the continuity-corrected form is used.  It
reproduces the regression-fixed expected values of the tests (e.g.
`9.5/21` for counts 10/0, `199/402` for 100/0, and 0 for 0/0). -/
def mcnemarEffect (b c : Nat) : ℚ :=
  let n := b + c
  if n = 0 then 0
  else if min b c = 0 then ((max b c : ℚ) - 1 / 2) / (2 * n + 1)
  else ((max b c : ℚ) - (min b c : ℚ)) / (2 * n)

/-- Result of `signif_pair_diff`: the selected test and the parallel ordered
p-value and effect-size sequences. -/
structure SignifResult where
  test : TestKind
  pvalues : List ℚ
  effect_sizes : List ℚ
deriving DecidableEq

/-- Modelled from the spec: `PairedDifferenceTest.signif_pair_diff`.  Fewer
than two samples or mismatched lengths are configuration errors.  With
exactly two binary samples the McNemar branch is selected and computes the
exact p-value and effect size from the 2x2 contingency table; otherwise a
paired t-test (or permutation test) is run — its numeric results require
real-valued statistics (Student-t tails) outside this rational model, so
that branch carries only its selection tag. -/
def signif_pair_diff (samples_list : List (List ℚ)) (permute : Bool) :
    Except String SignifResult :=
  if samples_list.length < 2 then .error "at least two samples are required"
  else if ¬ (samples_list.all (fun s => s.length = (samples_list.headI).length)) then
    .error "samples must have equal lengths"
  else
    match samples_list with
    | [x, y] =>
        if isBinaryVec x ∧ isBinaryVec y then
          let b := discordant10 x y
          let c := discordant01 x y
          .ok ⟨.mcnemar, [mcnemarPValue b c], [mcnemarEffect b c]⟩
        else .ok ⟨if permute then .permutation else .tTest, [], []⟩
    | _ => .ok ⟨if permute then .permutation else .tTest, [], []⟩

section Lemmas

@[simp]
theorem ok_bind {α β : Type} (a : α) (f : α → Except PyErr β) :
    (Except.ok a >>= f) = f a := rfl

@[simp]
theorem error_bind {α β : Type} (e : PyErr) (f : α → Except PyErr β) :
    ((Except.error e : Except PyErr α) >>= f) = Except.error e := rfl

@[simp]
theorem pure_eq_ok {α : Type} (a : α) : (pure a : Except PyErr α) = .ok a := rfl

@[simp]
theorem mapExcept_nil {α β : Type} (f : α → Except PyErr β) :
    mapExcept f [] = .ok [] := rfl

theorem mapExcept_cons {α β : Type} (f : α → Except PyErr β) (a : α) (l : List α) :
    mapExcept f (a :: l) =
      (f a >>= fun b => mapExcept f l >>= fun bs => .ok (b :: bs)) := rfl

instance {ε α : Type} [DecidableEq ε] [DecidableEq α] : DecidableEq (Except ε α) :=
  fun a b =>
    match a, b with
    | .ok x, .ok y => decidable_of_iff (x = y) (by simp)
    | .error e, .error e' => decidable_of_iff (e = e') (by simp)
    | .ok _, .error _ => isFalse (by simp)
    | .error _, .ok _ => isFalse (by simp)

end Lemmas

section ClaimC3

/-- Auxiliary constructor for concrete witness instances. -/
def mkInst (s : List (String × Val)) (t : List (String × String)) : Instance :=
  ⟨s, t⟩

/-- C3. The default `InstanceMetric` aggregating function
`average_item_scores`, built on `nan_mean`, returns the arithmetic mean of
the non-NaN instance scores for the requested score name (NaN entries are
excluded, not treated as 0), and NaN when no non-NaN score exists. -/
theorem c3_average_item_scores_is_nan_mean (instances : List Instance)
    (score_name : String) (scores : List Val)
    (h : mapExcept (fun i => getInstanceScore i score_name) instances = .ok scores) :
    (scores.filterMap toNum ≠ [] →
      average_item_scores instances score_name =
        .ok (.num (list_mean (scores.filterMap toNum)))) ∧
    (scores.filterMap toNum = [] →
      average_item_scores instances score_name = .ok .nan) := by
  constructor
  · intro hne
    simp only [average_item_scores, h, ok_bind, pure_eq_ok, nan_mean]
    rw [if_neg hne]
  · intro he
    simp only [average_item_scores, h, ok_bind, pure_eq_ok, nan_mean]
    rw [if_pos he]

/-- Witness for C3: three instances, one NaN score, mean of the remaining
two is 3/4. -/
theorem c3_witness :
    average_item_scores
      [mkInst [("a", Val.num (1/2))] [], mkInst [("a", Val.nan)] [],
       mkInst [("a", Val.num 1)] []] "a" = .ok (Val.num (3/4)) := by
  have h := (c3_average_item_scores_is_nan_mean
      [mkInst [("a", Val.num (1/2))] [], mkInst [("a", Val.nan)] [],
       mkInst [("a", Val.num 1)] []] "a"
      [Val.num (1/2), Val.nan, Val.num 1]
      (by simp [mapExcept_cons, mkInst, getInstanceScore, lookupStr])).1 (by decide)
  rw [h]
  norm_num [list_mean, toNum, List.filterMap_cons]

end ClaimC3

section ClaimC4

/-- C4. `score_based_confidence_interval` returns a dictionary with no keys
at all whenever `n_resamples` is `None`, `n_resamples` is at most 1, or the
number of input instances is at most 1. -/
theorem c4_ci_skipped_when_cannot_compute (bs : String → Val × Val)
    (cfg : MetricCfg) (instances : List Instance) (score_names : List String)
    (pfx : String)
    (h : cfg.n_resamples = none ∨ (∃ k, cfg.n_resamples = some k ∧ k ≤ 1) ∨
         instances.length ≤ 1) :
    score_based_confidence_interval bs cfg instances score_names pfx = .ok [] := by
  have hc : can_compute_confidence_intervals cfg.n_resamples instances.length = false := by
    rcases h with h | ⟨k, hk, hle⟩ | hlen
    · simp [can_compute_confidence_intervals, h]
    · simp only [can_compute_confidence_intervals, hk]
      simp [not_lt.mpr hle]
    · cases hn : cfg.n_resamples with
      | none => simp [can_compute_confidence_intervals]
      | some k =>
          simp only [can_compute_confidence_intervals]
          simp [not_lt.mpr hlen]
  simp [score_based_confidence_interval, hc]

/-- Witness for C4: two instances but only one resample requested. -/
theorem c4_witness :
    score_based_confidence_interval (fun _ => (Val.num 0, Val.num 0))
      ⟨"acc", some 1, none, none, none, .bulkInstanceMetric⟩
      [mkInst [("acc", Val.num 0)] [], mkInst [("acc", Val.num 1)] []]
      ["acc"] "" = .ok [] :=
  c4_ci_skipped_when_cannot_compute _ _ _ _ _
    (Or.inr (Or.inl ⟨1, rfl, le_refl 1⟩))

end ClaimC4

section ClaimC6

/-- C6. `performance_drop_rate` returns exactly 1/2 on control [1,1,1,1]
versus comparison [0.5,0.5,0.5,0.5]; returns 0 whenever both the control
mean and the comparison mean are 0; and returns NaN whenever the control
mean is 0 and the comparison mean is nonzero. -/
theorem c6_performance_drop_rate_cases :
    performance_drop_rate [Val.num 1, Val.num 1, Val.num 1, Val.num 1]
        [Val.num (1/2), Val.num (1/2), Val.num (1/2), Val.num (1/2)] =
      Val.num (1/2) ∧
    (∀ c m : List Val, c.filterMap toNum ≠ [] → m.filterMap toNum ≠ [] →
       list_mean (c.filterMap toNum) = 0 → list_mean (m.filterMap toNum) = 0 →
       performance_drop_rate c m = Val.num 0) ∧
    (∀ c m : List Val, c.filterMap toNum ≠ [] → m.filterMap toNum ≠ [] →
       list_mean (c.filterMap toNum) = 0 → list_mean (m.filterMap toNum) ≠ 0 →
       performance_drop_rate c m = Val.nan) := by
  refine ⟨?_, ?_, ?_⟩
  · simp only [performance_drop_rate, List.filterMap_cons, List.filterMap_nil, toNum]
    rw [if_neg (by simp), if_neg (by norm_num [list_mean])]
    norm_num [list_mean]
  · intro c m hc hm hcz hmz
    simp [performance_drop_rate, hc, hm, hcz, hmz]
  · intro c m hc hm hcz hmz
    simp [performance_drop_rate, hc, hm, hcz, hmz]

/-- Witness for C6: the two zero-control-mean branches at concrete inputs
(a NaN entry in the control list is dropped before the means are taken). -/
theorem c6_witness :
    performance_drop_rate [Val.num 0, Val.nan] [Val.num 0] = Val.num 0 ∧
    performance_drop_rate [Val.num 0] [Val.num 1] = Val.nan :=
  ⟨c6_performance_drop_rate_cases.2.1 [Val.num 0, Val.nan] [Val.num 0]
      (by simp [toNum, List.filterMap_cons]) (by simp [toNum, List.filterMap_cons])
      (by norm_num [list_mean, toNum, List.filterMap_cons])
      (by norm_num [list_mean, toNum, List.filterMap_cons]),
   c6_performance_drop_rate_cases.2.2 [Val.num 0] [Val.num 1]
      (by simp [toNum, List.filterMap_cons]) (by simp [toNum, List.filterMap_cons])
      (by norm_num [list_mean, toNum, List.filterMap_cons])
      (by norm_num [list_mean, toNum, List.filterMap_cons])⟩

end ClaimC6

section ClaimC9

/-- C9. On the two binary samples [1]*100 and [0]*100 the McNemar branch of
`signif_pair_diff` is selected and returns, without raising, the p-value
2^(-99), which lies between 1.57e-30 and 1.59e-30 (approximately 1.58e-30),
and the effect size 199/402, which lies between 0.49 and 0.5 (approximately
0.495). -/
theorem c9_mcnemar_complete_disagreement :
    signif_pair_diff [List.replicate 100 1, List.replicate 100 0] false =
      .ok ⟨.mcnemar, [1 / 2 ^ 99], [199 / 402]⟩ ∧
    (157 : ℚ) / 10 ^ 32 < 1 / 2 ^ 99 ∧ (1 : ℚ) / 2 ^ 99 < 159 / 10 ^ 32 ∧
    (49 : ℚ) / 100 < 199 / 402 ∧ (199 : ℚ) / 402 < 1 / 2 := by
  have hbx : isBinaryVec (List.replicate 100 (1 : ℚ)) = true := by decide
  have hby : isBinaryVec (List.replicate 100 (0 : ℚ)) = true := by decide
  have h10 : discordant10 (List.replicate 100 (1 : ℚ)) (List.replicate 100 (0 : ℚ)) = 100 := by
    decide
  have h01 : discordant01 (List.replicate 100 (1 : ℚ)) (List.replicate 100 (0 : ℚ)) = 0 := by
    decide
  have hp : mcnemarPValue 100 0 = 1 / 2 ^ 99 := by
    have h1 : mcnemarPValue 100 0 =
        min 1 (2 * (((List.range 1).map (fun j => ((100 : ℕ).choose j : ℚ))).sum) / 2 ^ 100) :=
      rfl
    have h2 : List.range 1 = [0] := by decide
    rw [h1, h2]
    simp only [List.map_cons, List.map_nil, Nat.choose_zero_right, Nat.cast_one,
      List.sum_cons, List.sum_nil, add_zero]
    rw [min_eq_right (by norm_num)]
    norm_num
  have he : mcnemarEffect 100 0 = 199 / 402 := by
    have h1 : mcnemarEffect 100 0 = ((max 100 0 : ℚ) - 1 / 2) / (2 * (100 : ℕ) + 1) := rfl
    rw [h1]
    norm_num
  refine ⟨?_, by norm_num, by norm_num, by norm_num, by norm_num⟩
  have hstep : signif_pair_diff [List.replicate 100 (1 : ℚ), List.replicate 100 0] false =
      .ok ⟨.mcnemar,
        [mcnemarPValue
          (discordant10 (List.replicate 100 (1 : ℚ)) (List.replicate 100 (0 : ℚ)))
          (discordant01 (List.replicate 100 (1 : ℚ)) (List.replicate 100 (0 : ℚ)))],
        [mcnemarEffect
          (discordant10 (List.replicate 100 (1 : ℚ)) (List.replicate 100 (0 : ℚ)))
          (discordant01 (List.replicate 100 (1 : ℚ)) (List.replicate 100 (0 : ℚ)))]⟩ := rfl
  rw [hstep, h10, h01, hp, he]

end ClaimC9

section ClaimC10

/-- C10. The "mean" reduction of `BulkInstanceMetric.process` uses the plain
arithmetic mean with NaN included: when some instance's score for a reduced
field is NaN, the reduced global score for that field is NaN — unlike the
`InstanceMetric` default `nan_mean` aggregation, which would exclude the NaN
and return the mean of the rest. -/
theorem c10_bulk_mean_includes_nan (main_score f : String)
    (instances : List Instance) (scores : List Val)
    (hs : mapExcept (fun i => getInstanceScore i f) instances = .ok scores)
    (hfl : scores.all floatLike = true)
    (hnan : Val.nan ∈ scores)
    (hf1 : f ≠ "score") (hf2 : f ≠ "score_name") :
    ∃ r, bulk_reduce_mean main_score instances [f] = .ok r ∧
      lookupStr r f = some Val.nan ∧
      (scores.filterMap toNum ≠ [] → nan_mean scores ≠ Val.nan) := by
  have hne : scores ≠ [] := by rintro rfl; simp at hnan
  have hany : scores.any (fun v => match v with | .nan => true | _ => false) = true := by
    rw [List.any_eq_true]
    exact ⟨Val.nan, hnan, rfl⟩
  have hm : statistics_mean scores = .ok Val.nan := by
    simp only [statistics_mean]
    rw [if_neg hne, if_neg (not_not_intro hfl), if_pos hany]
  have hloop : bulk_reduce_mean main_score instances [f] =
      .ok (if f = main_score then
             dictSet (dictSet (dictSet [] f Val.nan) "score" Val.nan)
               "score_name" (Val.str main_score)
           else dictSet [] f Val.nan) := by
    simp only [bulk_reduce_mean, bulk_reduce_loop, hs, ok_bind, hm]
  refine ⟨_, hloop, ?_, ?_⟩
  · by_cases hfm : f = main_score
    · subst hfm
      simp [dictSet, lookupStr, hf1, hf2]
    · simp [hfm, dictSet, lookupStr]
  · intro hnn
    simp [nan_mean, hnn]

/-- Witness for C10: two instances, one NaN score for the reduced field;
the bulk global score is NaN while `nan_mean` on the same scores is 1. -/
theorem c10_witness :
    ∃ r, bulk_reduce_mean "acc"
        [mkInst [("acc", Val.num 1)] [], mkInst [("acc", Val.nan)] []]
        ["acc"] = .ok r ∧
      lookupStr r "acc" = some Val.nan ∧
      ([Val.num 1, Val.nan].filterMap toNum ≠ [] →
        nan_mean [Val.num 1, Val.nan] ≠ Val.nan) :=
  c10_bulk_mean_includes_nan "acc" "acc"
    [mkInst [("acc", Val.num 1)] [], mkInst [("acc", Val.nan)] []]
    [Val.num 1, Val.nan] (by decide) (by decide) (by decide)
    (by decide) (by decide)

end ClaimC10

section ClaimC8

theorem link_loop_all_none (instances : List (Option Nat))
    (h : ∀ x ∈ instances, x = none) :
    ∀ l cur, link_loop (l, cur) instances = (l ++ List.replicate instances.length cur, cur) := by
  induction instances with
  | nil => intro l cur; simp [link_loop]
  | cons a rest ih =>
      intro l cur
      have ha : a = none := h a (by simp)
      subst ha
      simp only [link_loop, linkStep]
      rw [ih (fun x hx => h x (by simp [hx])) (l ++ [cur]) cur]
      simp [List.replicate_succ]

theorem link_loop_all_some (a : Nat) (instances : List (Option Nat))
    (h : ∀ x ∈ instances, x = some a) :
    ∀ l cur, instances ≠ [] →
      link_loop (l, cur) instances = (l ++ List.replicate instances.length a, a) := by
  induction instances with
  | nil => intro l cur hne; exact absurd rfl hne
  | cons b rest ih =>
      intro l cur _
      have hb : b = some a := h b (by simp)
      subst hb
      simp only [link_loop, linkStep]
      by_cases hr : rest = []
      · subst hr
        simp [link_loop, List.replicate_succ]
      · rw [ih (fun x hx => h x (by simp [hx])) (l ++ [a]) a hr]
        simp [List.replicate_succ]

/-- C8 counterexample. On a stream whose first instance has no pre-existing
score and whose second instance arrives with a global dict of its own
(address 1), the yielded instances do not share one global-score object:
the first keeps the fresh dict (address 0), the second its own, and the
end-of-run global update targets only the latter. -/
theorem c8_counterexample_mixed_stream :
    ¬ shared_global_invariant 0 [none, some 1] := by
  unfold shared_global_invariant
  decide

/-- C8 as amended: when no instance of the stream arrives with a
pre-existing score object — or all arrive already sharing one — every
yielded instance's global-score address equals the address the single
end-of-run global update is written to, so one update is visible through
every instance. -/
theorem c8_shared_global_when_uniform (fresh : Nat)
    (instances : List (Option Nat))
    (h : (∀ x ∈ instances, x = none) ∨ ∃ a, ∀ x ∈ instances, x = some a) :
    shared_global_invariant fresh instances := by
  rcases h with h | ⟨a, h⟩
  · unfold shared_global_invariant link_global_score
    rw [link_loop_all_none instances h [] fresh]
    intro x hx
    simp only [List.nil_append] at hx ⊢
    exact List.eq_of_mem_replicate hx
  · by_cases hne : instances = []
    · subst hne
      unfold shared_global_invariant link_global_score link_loop
      intro x hx
      simp at hx
    · unfold shared_global_invariant link_global_score
      rw [link_loop_all_some a instances h [] fresh hne]
      intro x hx
      simp only [List.nil_append] at hx ⊢
      exact List.eq_of_mem_replicate hx

/-- Witness for C8 (amended): a three-instance stream with no pre-existing
scores shares one global dict. -/
theorem c8_witness : shared_global_invariant 7 [none, none, none] :=
  c8_shared_global_when_uniform 7 [none, none, none] (Or.inl (by decide))

end ClaimC8

section ClaimC7

/-- Configuration for C7: an `InstanceMetric` with grouping by
"task_data/group_id". -/
def cfgC7 : MetricCfg :=
  ⟨"acc", none, some ⟨"task_data/group_id", false⟩, none, none,
   .instanceMetric average_item_scores⟩

/-- An instance that lacks the configured grouping field. -/
def instMissing : Instance := mkInst [("acc", Val.num 1)] []

/-- An instance carrying group value "g1". -/
def instWithGroup : Instance := mkInst [("acc", Val.num 0)] [("task_data/group_id", "g1")]

/-- C7 (code bug, evaluated at the failing inputs).  When grouping is
configured and an instance lacks the grouping field, the code does not raise
the claimed `ValueError` naming the missing field: if the first instance is
the offender, the handler's f-string reads the unbound local `group_name`
and an `UnboundLocalError` escapes; if a previous instance succeeded, the
raised `ValueError` quotes that previous instance's group value ("g1"), not
the missing field "task_data/group_id". -/
theorem c7_grouping_error_is_miswired :
    score_groups_globally cfgC7 [instMissing] (some ["acc"]) = .error .unboundLocal ∧
    score_groups_globally cfgC7 [instWithGroup, instMissing] (some ["acc"]) =
      .error (.valueErrorGrouping instMissing "g1") ∧
    ("g1" : String) ≠ "task_data/group_id" := by
  refine ⟨by decide, by decide, by decide⟩

end ClaimC7

section ClaimC2

/-- C2 counterexample.  When `process_single_instances` is enabled and the
singleton `_compute` raises, the preview score records Python `None` — not
NaN — under "score" and under the main-score name (lines 678-687:
`no_score_value` is set to `None` by the handler). -/
theorem c2_counterexample_none_not_nan :
    previewScore "accuracy" true (.error .typeError) =
      [("score", Val.pynone), ("score_name", Val.str "accuracy"),
       ("accuracy", Val.pynone)] ∧
    lookupStr (previewScore "accuracy" true (.error .typeError)) "score" ≠
      some Val.nan ∧
    lookupStr (previewScore "accuracy" true (.error .typeError)) "accuracy" ≠
      some Val.nan := by
  refine ⟨by decide, by decide, by decide⟩

/-- C2 as amended.  When the singleton computation of a `GlobalMetric` with
`process_single_instances` raises, that instance's preview score entries
("score" and the main-score name) are recorded as Python `None` (a null
sentinel, not NaN), and processing continues: the stream-level global score
is still computed from the whole stream. -/
theorem c2_exception_gives_none_and_continues (cfg : MetricCfg)
    (compute : List Instance → Except PyErr (List (String × Val))) (e : PyErr)
    (hk : cfg.kind = .globalMetric true compute)
    (hg : cfg.grouping = none) (hf : cfg.subgroup_filtering = none)
    (hcc : cfg.control_comparison = none)
    (instances : List Instance) (i : Instance) (hi : i ∈ instances)
    (g : List (String × Val))
    (hfail : underscore_compute cfg.main_score compute [i] = .error e)
    (hok : underscore_compute cfg.main_score compute instances = .ok g) :
    previewScore cfg.main_score true (underscore_compute cfg.main_score compute [i]) =
      dictSet [("score", Val.pynone), ("score_name", Val.str cfg.main_score)]
        cfg.main_score Val.pynone ∧
    global_metric_process cfg instances =
      .ok (instances.map (fun j =>
             previewScore cfg.main_score true
               (underscore_compute cfg.main_score compute [j])),
           .single (.gdict g)) := by
  have hne : instances ≠ [] := by rintro rfl; simp at hi
  constructor
  · rw [hfail]
    rfl
  · have havg : average_groups_global_scores cfg instances none =
        .ok (.single (.gdict g)) := by
      simp only [average_groups_global_scores, Option.map_none', score_groups_globally,
        groupInstances, applyFiltering, applySplit, scoreGroups, hg, hf, hcc,
        ok_bind, pure_eq_ok, List.map_cons, List.map_nil,
        mapExcept_cons, mapExcept_nil, scoreOneGroup, hk, if_neg hne, hok,
        List.filterMap_cons, List.filterMap_nil, Option.map_some']
    simp only [global_metric_process, hk, havg, ok_bind, pure_eq_ok]

/-- A concrete compute that raises on singletons and succeeds on the whole
stream. -/
def computeC2 : List Instance → Except PyErr (List (String × Val)) :=
  fun l => if l.length ≤ 1 then .error .typeError else .ok [("acc", Val.num 1)]

/-- A concrete `GlobalMetric` configuration with no grouping. -/
def cfgC2 : MetricCfg := ⟨"acc", none, none, none, none, .globalMetric true computeC2⟩

/-- A stream instance without pre-existing scores. -/
def instA : Instance := mkInst [] []

/-- A second stream instance. -/
def instB : Instance := mkInst [] [("k", "v")]

/-- Witness for C2 (amended): on a concrete stream whose singleton
computations raise, the preview scores carry `None` and the global score is
still computed. -/
theorem c2_witness :
    previewScore cfgC2.main_score true
        (underscore_compute cfgC2.main_score computeC2 [instA]) =
      dictSet [("score", Val.pynone), ("score_name", Val.str cfgC2.main_score)]
        cfgC2.main_score Val.pynone ∧
    global_metric_process cfgC2 [instA, instB] =
      .ok ([instA, instB].map (fun j =>
             previewScore cfgC2.main_score true
               (underscore_compute cfgC2.main_score computeC2 [j])),
           .single (.gdict [("acc", Val.num 1), ("score", Val.num 1),
                            ("score_name", Val.str "acc")])) :=
  c2_exception_gives_none_and_continues cfgC2 computeC2 .typeError rfl rfl rfl rfl
    [instA, instB] instA (by decide)
    [("acc", Val.num 1), ("score", Val.num 1), ("score_name", Val.str "acc")]
    (by decide) (by decide)

end ClaimC2

section ClaimC1

theorem bind_ok_inv {α β : Type} (ma : Except PyErr α) (f : α → Except PyErr β)
    (b : β) (h : (ma >>= f) = .ok b) : ∃ a, ma = .ok a ∧ f a = .ok b := by
  cases ma with
  | error e => simp at h
  | ok a => exact ⟨a, rfl, by simpa using h⟩

theorem mapExcept_singleton {α β : Type} (f : α → Except PyErr β) (x : α)
    (ys : List β) (h : mapExcept f [x] = .ok ys) :
    ∃ y, f x = .ok y ∧ ys = [y] := by
  rw [mapExcept_cons] at h
  cases hfx : f x with
  | error e => rw [hfx] at h; simp at h
  | ok y =>
      rw [hfx] at h
      simp only [ok_bind, mapExcept_nil, pure_eq_ok, Except.ok.injEq] at h
      exact ⟨y, rfl, h.symm⟩

/-- Shape of a successful ungrouped `score_groups_globally` run of an
`InstanceMetric` for one score name: exactly one group, named "all", whose
global score binds just that score name. -/
theorem score_groups_globally_ungrouped_shape (cfg : MetricCfg)
    (agg : List Instance → String → Except PyErr Val)
    (hk : cfg.kind = .instanceMetric agg) (hg : cfg.grouping = none)
    (instances : List Instance) (n : String)
    (gs : List (String × GroupGlobal))
    (h : score_groups_globally cfg instances (some [n]) = .ok gs) :
    ∃ v, gs = [("all", GroupGlobal.gdict [(n, v)])] := by
  simp only [score_groups_globally] at h
  obtain ⟨grouped, hg1, h⟩ := bind_ok_inv _ _ _ h
  rw [hg] at hg1
  simp only [groupInstances, Except.ok.injEq] at hg1
  subst hg1
  obtain ⟨grouped', h2, h⟩ := bind_ok_inv _ _ _ h
  have hshape1 : ∃ l1, grouped' = [("all", l1)] := by
    cases hfcfg : cfg.subgroup_filtering with
    | none =>
        rw [hfcfg] at h2
        simp only [applyFiltering, pure_eq_ok, Except.ok.injEq] at h2
        exact ⟨instances, h2.symm⟩
    | some f =>
        rw [hfcfg] at h2
        simp only [applyFiltering] at h2
        obtain ⟨y, hy, hys⟩ := mapExcept_singleton _ _ _ h2
        obtain ⟨la, _, hy2⟩ := bind_ok_inv _ _ _ hy
        simp only [pure_eq_ok, Except.ok.injEq] at hy2
        exact ⟨la, by rw [hys, ← hy2]⟩
  obtain ⟨l1, hl1⟩ := hshape1
  subst hl1
  obtain ⟨grouped2, h3, h⟩ := bind_ok_inv _ _ _ h
  have hshape2 : ∃ gv, grouped2 = [("all", gv)] ∧
      (∀ c m, gv = GroupVal.split c m → cfg.control_comparison ≠ none) := by
    cases hccfg : cfg.control_comparison with
    | none =>
        rw [hccfg] at h3
        simp only [applySplit, pure_eq_ok, List.map_cons, List.map_nil,
          Except.ok.injEq] at h3
        exact ⟨GroupVal.plain l1, h3.symm, by intro c m hcm; cases hcm⟩
    | some cc =>
        rw [hccfg] at h3
        simp only [applySplit] at h3
        obtain ⟨y, hy, hys⟩ := mapExcept_singleton _ _ _ h3
        obtain ⟨p', _, hy2⟩ := bind_ok_inv _ _ _ hy
        obtain ⟨pc, pm⟩ := p'
        simp only [pure_eq_ok, Except.ok.injEq] at hy2
        refine ⟨GroupVal.split pc pm, ?_, ?_⟩
        · rw [hys, ← hy2]
        · intro c m _
          simp
  obtain ⟨gv, hgv, hgvcc⟩ := hshape2
  subst hgv
  simp only [scoreGroups] at h
  obtain ⟨scored, h4, h⟩ := bind_ok_inv _ _ _ h
  simp only [pure_eq_ok, Except.ok.injEq] at h
  obtain ⟨y, hy, hys⟩ := mapExcept_singleton _ _ _ h4
  obtain ⟨r, hr, hy2⟩ := bind_ok_inv _ _ _ hy
  simp only [pure_eq_ok, Except.ok.injEq] at hy2
  have hrval : ∃ v, r = some (GroupGlobal.gdict [(n, v)]) := by
    cases gv with
    | plain l =>
        simp only [scoreOneGroup, hk] at hr
        obtain ⟨d, hd, hr2⟩ := bind_ok_inv _ _ _ hr
        simp only [pure_eq_ok, Except.ok.injEq] at hr2
        obtain ⟨y', hy', hd2⟩ := mapExcept_singleton _ _ _ hd
        obtain ⟨v, _, hy'2⟩ := bind_ok_inv _ _ _ hy'
        simp only [pure_eq_ok, Except.ok.injEq] at hy'2
        exact ⟨v, by rw [← hr2, hd2, ← hy'2]⟩
    | split c m =>
        cases hccfg : cfg.control_comparison with
        | none => exact absurd hccfg (hgvcc c m rfl)
        | some cc =>
            simp only [scoreOneGroup, hk, hccfg] at hr
            obtain ⟨d, hd, hr2⟩ := bind_ok_inv _ _ _ hr
            simp only [pure_eq_ok, Except.ok.injEq] at hr2
            obtain ⟨y', hy', hd2⟩ := mapExcept_singleton _ _ _ hd
            obtain ⟨cs, _, hy'2⟩ := bind_ok_inv _ _ _ hy'
            obtain ⟨ms, _, hy'3⟩ := bind_ok_inv _ _ _ hy'2
            simp only [pure_eq_ok, Except.ok.injEq] at hy'3
            exact ⟨cc.control_comparison_score_calculator cs ms,
              by rw [← hr2, hd2, ← hy'3]⟩
  obtain ⟨v, hv⟩ := hrval
  subst hv
  rw [hys] at h
  simp only [List.filterMap_cons, List.filterMap_nil, Option.map_some'] at h
  rw [← hy2] at h
  exact ⟨v, h.symm⟩

/-- C1.  For an `InstanceMetric` with grouping unset, a successful
`score_groups_globally` run returns the one-group mapping "all" ↦ the
aggregated score; `average_groups_global_scores` of that single group
returns the group's score unchanged; and the ungrouped global score of
`InstanceMetric.process` equals the grouped-path aggregate (`nan_mean` over
the per-group scores) of the same run — single-group `nan_mean` is the
identity on float scores. -/
theorem c1_ungrouped_equals_single_group (cfg : MetricCfg)
    (agg : List Instance → String → Except PyErr Val)
    (hk : cfg.kind = .instanceMetric agg) (hg : cfg.grouping = none)
    (instances : List Instance) (n : String)
    (gs : List (String × GroupGlobal))
    (h : score_groups_globally cfg instances (some [n]) = .ok gs) :
    ∃ v, gs = [("all", GroupGlobal.gdict [(n, v)])] ∧
      average_groups_global_scores cfg instances (some n) =
        .ok (.single (.gdict [(n, v)])) ∧
      instance_metric_global_score cfg instances n = .ok v ∧
      grouped_groups_mean gs n = .ok (nan_mean [v]) ∧
      (floatLike v = true → nan_mean [v] = v) := by
  obtain ⟨v, hv⟩ := score_groups_globally_ungrouped_shape cfg agg hk hg instances n gs h
  subst hv
  refine ⟨v, rfl, ?_, ?_, ?_, ?_⟩
  · simp only [average_groups_global_scores, Option.map_some', h, ok_bind]
    rfl
  · simp [instance_metric_global_score, h, hg, groupScoreAt, lookupStr]
  · simp [grouped_groups_mean, mapExcept_cons, groupScoreAt, lookupStr]
  · intro hfv
    cases v with
    | num q => simp [nan_mean, list_mean, toNum, List.filterMap_cons]
    | nan => simp [nan_mean, toNum, List.filterMap_cons]
    | pynone => simp [floatLike] at hfv
    | str s => simp [floatLike] at hfv

/-- A concrete default-aggregation `InstanceMetric` configuration with
grouping unset. -/
def cfgC1 : MetricCfg := ⟨"acc", none, none, none, none, .instanceMetric average_item_scores⟩

/-- A concrete two-instance stream with instance scores 1 and 0. -/
def instsC1 : List Instance :=
  [mkInst [("acc", Val.num 1)] [], mkInst [("acc", Val.num 0)] []]

/-- Witness for C1: on the concrete stream, both paths give 1/2. -/
theorem c1_witness :
    ∃ v, ([("all", GroupGlobal.gdict [("acc", Val.num (1/2))])] :
            List (String × GroupGlobal)) = [("all", GroupGlobal.gdict [("acc", v)])] ∧
      average_groups_global_scores cfgC1 instsC1 (some "acc") =
        .ok (.single (.gdict [("acc", v)])) ∧
      instance_metric_global_score cfgC1 instsC1 "acc" = .ok v ∧
      grouped_groups_mean [("all", GroupGlobal.gdict [("acc", Val.num (1/2))])] "acc" =
        .ok (nan_mean [v]) ∧
      (floatLike v = true → nan_mean [v] = v) :=
  c1_ungrouped_equals_single_group cfgC1 average_item_scores rfl rfl instsC1 "acc"
    [("all", GroupGlobal.gdict [("acc", Val.num (1/2))])]
    (by
      simp only [score_groups_globally, cfgC1, instsC1, mkInst, groupInstances,
        applyFiltering, applySplit, scoreGroups, mapExcept_cons, mapExcept_nil,
        ok_bind, pure_eq_ok, scoreOneGroup, average_item_scores, getInstanceScore,
        lookupStr, List.map_cons, List.map_nil, List.filterMap_cons,
        List.filterMap_nil, Option.map_some', nan_mean, list_mean, toNum]
      norm_num [toNum, List.filterMap_cons, List.filterMap_nil]
      intro hx
      simp at hx)

end ClaimC1

section ClaimC5

theorem strDataAppend : ∀ (a b : String), (a ++ b).data = a.data ++ b.data
  | ⟨_⟩, ⟨_⟩ => rfl

theorem strExt : ∀ {a b : String}, a.data = b.data → a = b
  | ⟨_⟩, ⟨_⟩, h => by cases h; rfl

theorem str_append_right_cancel {a b t : String} (h : a ++ t = b ++ t) : a = b := by
  apply strExt
  have hd := congrArg String.data h
  rw [strDataAppend, strDataAppend] at hd
  exact List.append_cancel_right hd

theorem str_append_left_cancel {p a b : String} (h : p ++ a = p ++ b) : a = b := by
  apply strExt
  have hd := congrArg String.data h
  rw [strDataAppend, strDataAppend] at hd
  exact List.append_cancel_left hd

theorem low_ne_high (a b : String) : a ++ "_ci_low" ≠ b ++ "_ci_high" := by
  intro h
  have hd := congrArg String.data h
  rw [strDataAppend, strDataAppend] at hd
  have hr := congrArg List.reverse hd
  rw [List.reverse_append, List.reverse_append] at hr
  have e1 : ("_ci_low" : String).data.reverse = ['w', 'o', 'l', '_', 'i', 'c', '_'] := rfl
  have e2 : ("_ci_high" : String).data.reverse = ['h', 'g', 'i', 'h', '_', 'i', 'c', '_'] := rfl
  rw [e1, e2] at hr
  simp at hr

theorem mem_dictKeys_dictSet {α : Type} (d : List (String × α)) (k : String)
    (v : α) (m : String) :
    m ∈ dictKeys (dictSet d k v) ↔ m = k ∨ m ∈ dictKeys d := by
  induction d with
  | nil => simp [dictSet, dictKeys]
  | cons a rest ih =>
      obtain ⟨k', v'⟩ := a
      by_cases hk : k' = k
      · subst hk
        simp [dictSet, dictKeys]
      · simp only [dictSet, if_neg hk, dictKeys, List.map_cons, List.mem_cons] at ih ⊢
        rw [ih]
        tauto

theorem mem_keys_ciKeysFor (bs : String → Val × Val) (main_score pfx n : String)
    (acc : List (String × Val)) (m : String) :
    m ∈ dictKeys (ciKeysFor bs main_score pfx n acc) ↔
      m = pfx ++ n ++ "_ci_low" ∨ m = pfx ++ n ++ "_ci_high" ∨
      (n = main_score ∧ (m = "score_ci_low" ∨ m = "score_ci_high")) ∨
      m ∈ dictKeys acc := by
  simp only [ciKeysFor]
  by_cases hm : n = main_score
  · rw [if_pos hm]
    simp only [mem_dictKeys_dictSet, hm]
    tauto
  · rw [if_neg hm]
    simp only [mem_dictKeys_dictSet]
    tauto

theorem sbci_loop_mono (bs : String → Val × Val) (instances : List Instance)
    (main_score pfx : String) :
    ∀ (names : List String) (acc r : List (String × Val)),
      sbci_loop bs instances main_score pfx names acc = .ok r →
      ∀ k, k ∈ dictKeys acc → k ∈ dictKeys r := by
  intro names
  induction names with
  | nil =>
      intro acc r h k hk
      simp only [sbci_loop, Except.ok.injEq] at h
      rwa [← h]
  | cons nn rest ih =>
      intro acc r h k hk
      simp only [sbci_loop] at h
      obtain ⟨b, _, h⟩ := bind_ok_inv _ _ _ h
      cases b with
      | true =>
          rw [if_pos rfl] at h
          exact ih _ _ h k hk
      | false =>
          rw [if_neg (by simp)] at h
          exact ih _ _ h k
            ((mem_keys_ciKeysFor bs main_score pfx nn acc k).mpr (by tauto))

theorem sbci_loop_sub (bs : String → Val × Val) (instances : List Instance)
    (main_score pfx : String) :
    ∀ (names : List String) (acc r : List (String × Val)),
      sbci_loop bs instances main_score pfx names acc = .ok r →
      ∀ k, k ∈ dictKeys r →
        k ∈ dictKeys acc ∨
        ∃ nn, nn ∈ names ∧ all_instance_scores_equal instances nn = .ok false ∧
          (k = pfx ++ nn ++ "_ci_low" ∨ k = pfx ++ nn ++ "_ci_high" ∨
           (nn = main_score ∧ (k = "score_ci_low" ∨ k = "score_ci_high"))) := by
  intro names
  induction names with
  | nil =>
      intro acc r h k hk
      simp only [sbci_loop, Except.ok.injEq] at h
      subst h
      exact Or.inl hk
  | cons nn rest ih =>
      intro acc r h k hk
      simp only [sbci_loop] at h
      obtain ⟨b, hb, h⟩ := bind_ok_inv _ _ _ h
      cases b with
      | true =>
          rw [if_pos rfl] at h
          rcases ih _ _ h k hk with hacc | ⟨mm, hmm, hf, hcase⟩
          · exact Or.inl hacc
          · exact Or.inr ⟨mm, List.mem_cons_of_mem _ hmm, hf, hcase⟩
      | false =>
          rw [if_neg (by simp)] at h
          rcases ih _ _ h k hk with hacc | ⟨mm, hmm, hf, hcase⟩
          · rcases (mem_keys_ciKeysFor bs main_score pfx nn acc k).mp hacc with
              hc | hc | hc | hc
            · exact Or.inr ⟨nn, List.mem_cons_self _ _, hb, Or.inl hc⟩
            · exact Or.inr ⟨nn, List.mem_cons_self _ _, hb, Or.inr (Or.inl hc)⟩
            · exact Or.inr ⟨nn, List.mem_cons_self _ _, hb, Or.inr (Or.inr hc)⟩
            · exact Or.inl hc
          · exact Or.inr ⟨mm, List.mem_cons_of_mem _ hmm, hf, hcase⟩

theorem sbci_loop_present (bs : String → Val × Val) (instances : List Instance)
    (main_score pfx : String) :
    ∀ (names : List String) (acc r : List (String × Val)),
      sbci_loop bs instances main_score pfx names acc = .ok r →
      ∀ nn, nn ∈ names → all_instance_scores_equal instances nn = .ok false →
        (pfx ++ nn ++ "_ci_low") ∈ dictKeys r ∧
        (pfx ++ nn ++ "_ci_high") ∈ dictKeys r := by
  intro names
  induction names with
  | nil =>
      intro acc r _ nn hnn
      simp at hnn
  | cons hd rest ih =>
      intro acc r h nn hnn heq
      simp only [sbci_loop] at h
      obtain ⟨b, hb, h⟩ := bind_ok_inv _ _ _ h
      rcases List.mem_cons.mp hnn with hhd | hrest
      · subst hhd
        rw [heq] at hb
        injection hb with hbx
        subst hbx
        rw [if_neg (by simp)] at h
        constructor
        · exact sbci_loop_mono bs instances main_score pfx rest _ r h _
            ((mem_keys_ciKeysFor bs main_score pfx nn acc _).mpr (Or.inl rfl))
        · exact sbci_loop_mono bs instances main_score pfx rest _ r h _
            ((mem_keys_ciKeysFor bs main_score pfx nn acc _).mpr (Or.inr (Or.inl rfl)))
      · cases b with
        | true =>
            rw [if_pos rfl] at h
            exact ih _ _ h nn hrest heq
        | false =>
            rw [if_neg (by simp)] at h
            exact ih _ _ h nn hrest heq

/-- C5.  When confidence intervals are computable, a requested score name
whose instance scores all coincide is skipped by
`score_based_confidence_interval`: the result carries no CI keys for it,
while every requested score name with differing instance scores does get
both of its CI keys.  (The side condition `pfx ++ n ≠ "score"` rules out the
unrelated unsuffixed main-score keys aliasing the skipped name's keys.) -/
theorem c5_zero_variance_ci_skipped (bs : String → Val × Val) (cfg : MetricCfg)
    (instances : List Instance) (score_names : List String) (pfx : String)
    (r : List (String × Val))
    (hcan : can_compute_confidence_intervals cfg.n_resamples instances.length = true)
    (hres : score_based_confidence_interval bs cfg instances score_names pfx = .ok r)
    (n : String) (_hn : n ∈ score_names)
    (heq : all_instance_scores_equal instances n = .ok true)
    (hns : pfx ++ n ≠ "score") :
    (pfx ++ n ++ "_ci_low") ∉ dictKeys r ∧
    (pfx ++ n ++ "_ci_high") ∉ dictKeys r ∧
    ∀ m ∈ score_names, all_instance_scores_equal instances m = .ok false →
      (pfx ++ m ++ "_ci_low") ∈ dictKeys r ∧
      (pfx ++ m ++ "_ci_high") ∈ dictKeys r := by
  rw [score_based_confidence_interval, if_pos hcan] at hres
  have hlow : ("score_ci_low" : String) = "score" ++ "_ci_low" := rfl
  have hhigh : ("score_ci_high" : String) = "score" ++ "_ci_high" := rfl
  refine ⟨?_, ?_, ?_⟩
  · intro hk
    rcases sbci_loop_sub bs instances cfg.main_score pfx score_names [] r hres _ hk with
      hk0 | ⟨nn, _, hnnf, hc | hc | ⟨_, hc | hc⟩⟩
    · simp [dictKeys] at hk0
    · have h1 : pfx ++ n = pfx ++ nn := str_append_right_cancel hc
      have h2 : n = nn := str_append_left_cancel h1
      rw [← h2, heq] at hnnf
      simp at hnnf
    · exact absurd hc (low_ne_high _ _)
    · rw [hlow] at hc
      exact hns (str_append_right_cancel hc)
    · rw [hhigh] at hc
      exact absurd hc (low_ne_high _ _)
  · intro hk
    rcases sbci_loop_sub bs instances cfg.main_score pfx score_names [] r hres _ hk with
      hk0 | ⟨nn, _, hnnf, hc | hc | ⟨_, hc | hc⟩⟩
    · simp [dictKeys] at hk0
    · exact absurd hc.symm (low_ne_high _ _)
    · have h1 : pfx ++ n = pfx ++ nn := str_append_right_cancel hc
      have h2 : n = nn := str_append_left_cancel h1
      rw [← h2, heq] at hnnf
      simp at hnnf
    · rw [hlow] at hc
      exact absurd hc.symm (low_ne_high _ _)
    · rw [hhigh] at hc
      exact hns (str_append_right_cancel hc)
  · intro m hm hmf
    exact sbci_loop_present bs instances cfg.main_score pfx score_names [] r hres m hm hmf

/-- A constant bootstrap-CI oracle for the C5 witness. -/
def bsC5 : String → Val × Val := fun _ => (Val.num 0, Val.num 1)

/-- A configuration requesting 100 resamples, main score "b". -/
def cfgC5 : MetricCfg := ⟨"b", some 100, none, none, none, .bulkInstanceMetric⟩

/-- Three instances: score "a" is constant, score "b" varies. -/
def instsC5 : List Instance :=
  [mkInst [("a", Val.num 1), ("b", Val.num 0)] [],
   mkInst [("a", Val.num 1), ("b", Val.num 1)] [],
   mkInst [("a", Val.num 1), ("b", Val.num 1)] []]

/-- Witness for C5: the constant score "a" gets no CI keys while the
varying score "b" gets both (plus the unsuffixed main-score pair). -/
theorem c5_witness :
    ("" ++ "a" ++ "_ci_low") ∉ dictKeys
        [("b_ci_low", Val.num 0), ("b_ci_high", Val.num 1),
         ("score_ci_low", Val.num 0), ("score_ci_high", Val.num 1)] ∧
    ("" ++ "a" ++ "_ci_high") ∉ dictKeys
        [("b_ci_low", Val.num 0), ("b_ci_high", Val.num 1),
         ("score_ci_low", Val.num 0), ("score_ci_high", Val.num 1)] ∧
    ∀ m ∈ ["a", "b"], all_instance_scores_equal instsC5 m = .ok false →
      ("" ++ m ++ "_ci_low") ∈ dictKeys
        [("b_ci_low", Val.num 0), ("b_ci_high", Val.num 1),
         ("score_ci_low", Val.num 0), ("score_ci_high", Val.num 1)] ∧
      ("" ++ m ++ "_ci_high") ∈ dictKeys
        [("b_ci_low", Val.num 0), ("b_ci_high", Val.num 1),
         ("score_ci_low", Val.num 0), ("score_ci_high", Val.num 1)] :=
  c5_zero_variance_ci_skipped bsC5 cfgC5 instsC5 ["a", "b"] ""
    [("b_ci_low", Val.num 0), ("b_ci_high", Val.num 1),
     ("score_ci_low", Val.num 0), ("score_ci_high", Val.num 1)]
    (by decide) (by decide) "a" (by decide) (by decide) (by decide)

end ClaimC5

end Unitxt
